import Mathlib

/-!  Verification of the PK simulation / dose-titration engine of the
nephro-tools pages.  Shallow embedding over ℝ of:

* `DrugSimulation.__init__` and `calculate_hd_clearance` (05_Overdose_Sim.py)
* `run_scenario` (05_Overdose_Sim.py)
* `VCMSimulation.__init__`, `calculate_hd_clearance`, `run_sim` (06_VCM_Sim.py)
* `VCMSimulationCKD` (`run_sim_schedule`, `calc_auc24_steady`),
  `fit_kel_from_measured` and the dose-advisor arithmetic (08_VCM_CKD.py)

Python floats are modelled as real numbers, numpy arrays as functions from
the grid index, and Python's total functions as total Lean functions.
-/

namespace Nephro

/-! ### Compartment-model constructors (05_Overdose_Sim.py / 06_VCM_Sim.py) -/

/-- Drug parameters handed to `DrugSimulation.__init__` (05_Overdose_Sim.py). -/
structure DrugParams where
  V1_per_kg : ℝ
  V2_per_kg : ℝ
  Q_inter_L_min : ℝ
  T_half_hours : ℝ

/-- The derived fields of a `DrugSimulation` instance (05_Overdose_Sim.py). -/
structure DrugSim where
  V1 : ℝ
  V2 : ℝ
  Q_inter : ℝ
  k12 : ℝ
  k21 : ℝ
  k_el : ℝ

/-- `DrugSimulation.__init__` (05_Overdose_Sim.py, lines 11-28):
`V1 = V1_per_kg*weight`, `V2 = V2_per_kg*weight`, `k12 = Q/V1`, `k21 = Q/V2`,
and `k_el = 0.693*(V1+V2)/(t_half_min*V1)` when `t_half_min > 0`, else `0`. -/
noncomputable def mkDrugSimulation (p : DrugParams) (weight : ℝ) : DrugSim :=
  let V1 := p.V1_per_kg * weight
  let V2 := p.V2_per_kg * weight
  let t_half_min := p.T_half_hours * 60
  { V1 := V1
    V2 := V2
    Q_inter := p.Q_inter_L_min
    k12 := p.Q_inter_L_min / V1
    k21 := p.Q_inter_L_min / V2
    k_el := if 0 < t_half_min then (0.693 * (V1 + V2)) / (t_half_min * V1) else 0 }

/-- PK parameters handed to `VCMSimulation.__init__` (06_VCM_Sim.py). -/
structure VCMParams where
  V1_per_kg : ℝ
  V2_per_kg : ℝ
  Q : ℝ
  T_half_off : ℝ

/-- The derived fields of a `VCMSimulation` instance (06_VCM_Sim.py). -/
structure VCMSim where
  V1 : ℝ
  V2 : ℝ
  Q : ℝ
  t_half : ℝ
  k12 : ℝ
  k21 : ℝ
  k_el : ℝ

/-- `VCMSimulation.__init__` (06_VCM_Sim.py, lines 9-24); the `k_el`
derivation is identical to the one of `DrugSimulation`. -/
noncomputable def mkVCMSimulation (weight : ℝ) (p : VCMParams) : VCMSim :=
  let V1 := p.V1_per_kg * weight
  let V2 := p.V2_per_kg * weight
  let t_half_min := p.T_half_off * 60
  { V1 := V1
    V2 := V2
    Q := p.Q
    t_half := p.T_half_off
    k12 := p.Q / V1
    k21 := p.Q / V2
    k_el := if 0 < t_half_min then (0.693 * (V1 + V2)) / (t_half_min * V1) else 0 }

/-! ### Extracorporeal clearance (05_Overdose_Sim.py / 06_VCM_Sim.py) -/

/-- The common body of both `calculate_hd_clearance` methods: the clearance in
the input flow unit (mL/min), before the per-page output scaling.
`if Qb == 0: return 0`; otherwise `ratio = Qb/Qd`, `Z = (KoA/Qb)*(1-ratio)`;
the limiting form when `abs(1-ratio) < 0.001`, the general formula otherwise. -/
noncomputable def hdClearanceCore (Qb Qd KoA : ℝ) : ℝ :=
  if Qb = 0 then 0
  else
    let ratio := Qb / Qd
    let Z := (KoA / Qb) * (1 - ratio)
    if |1 - ratio| < 0.001 then Qb * (KoA / (KoA + Qb))
    else Qb * (Real.exp Z - 1) / (Real.exp Z - ratio)

/-- `DrugSimulation.calculate_hd_clearance` (05_Overdose_Sim.py, lines 30-40):
returns the core value times the sieving coefficient `sc` (default 1.0). -/
noncomputable def calculate_hd_clearance05 (Qb Qd KoA sc : ℝ) : ℝ :=
  if Qb = 0 then 0 else hdClearanceCore Qb Qd KoA * sc

/-- `VCMSimulation.calculate_hd_clearance` (06_VCM_Sim.py, lines 26-35):
returns the core value divided by 1000 (mL/min to L/min). -/
noncomputable def calculate_hd_clearance06 (Qb Qd KoA : ℝ) : ℝ :=
  if Qb = 0 then 0 else hdClearanceCore Qb Qd KoA / 1000

/-! ### Discrete-time simulator of 06_VCM_Sim.py (`run_sim`, lines 37-90) -/

/-- One entry of `schedule_events`: an `'hd'` removal window or a `'dose'`
infusion event, with start and duration in minutes and the value (clearance
resp. dose amount). -/
structure SchedEvent where
  isHD : Bool
  start : ℤ
  dur : ℤ
  val : ℝ

/-- Whether minute `t` lies in the event's window after the clipping
`start = max(0, start)`, `end = min(len, start + duration)` of `run_sim`. -/
def inSlice (len : ℕ) (e : SchedEvent) (t : ℕ) : Prop :=
  max 0 e.start ≤ (t : ℤ) ∧ (t : ℤ) < min (len : ℤ) (e.start + e.dur)

instance (len : ℕ) (e : SchedEvent) (t : ℕ) : Decidable (inSlice len e t) := by
  unfold inSlice
  infer_instance

/-- Schedule compilation of `run_sim` (06_VCM_Sim.py, lines 48-61), one event
at a time: an `'hd'` event assigns its clearance over its minutes
(`hd_map[start:end] = val`), a `'dose'` event adds its infusion rate
(`infusion_map[start:end] += val/duration`). -/
noncomputable def applyEvent (len : ℕ) (m : (ℕ → ℝ) × (ℕ → ℝ)) (e : SchedEvent) : (ℕ → ℝ) × (ℕ → ℝ) :=
  if e.isHD then
    (fun t => if inSlice len e t then e.val else m.1 t, m.2)
  else
    (m.1, fun t => m.2 t + if inSlice len e t then e.val / (e.dur : ℝ) else 0)

/-- The `(hd_map, infusion_map)` pair compiled from the whole event list. -/
noncomputable def buildMaps (len : ℕ) (events : List SchedEvent) : (ℕ → ℝ) × (ℕ → ℝ) :=
  events.foldl (applyEvent len) (fun _ => 0, fun _ => 0)

/-- One Euler step of `run_sim` (06_VCM_Sim.py, lines 81-89): only `A1` is
clamped to be non-negative (`if A1 < 0: A1 = 0`); `A2` is not. -/
noncomputable def vcmStep (sim : VCMSim) (hdv inputv : ℝ) (s : ℝ × ℝ) : ℝ × ℝ :=
  let trans := sim.k21 * s.2 - sim.k12 * s.1
  let elim := sim.k_el * s.1
  let rem_hd := s.1 / sim.V1 * hdv
  (max 0 (s.1 + trans - elim - rem_hd + inputv), s.2 - trans)

/-- The optional `start_adjust` state reset of `run_sim` (06_VCM_Sim.py,
lines 64-77), applied at the top of iteration `i`. -/
noncomputable def applyAdjust (sim : VCMSim) (adj : Option (ℕ × ℝ)) (i : ℕ) (s : ℝ × ℝ) : ℝ × ℝ :=
  match adj with
  | none => s
  | some a =>
    if i = a.1 then
      let measured := a.2
      let currentConc := if 0 < sim.V1 then s.1 / sim.V1 else 0
      if 0 < currentConc then (measured * sim.V1, s.2 * (measured / currentConc))
      else (measured * sim.V1, s.2)
    else s

/-- The `(A1, A2)` state of `run_sim` as recorded at grid point `n`: the
initial state is `(0, 0)`; each iteration applies the optional reset, records
the concentration, then steps with the compiled maps at the current minute. -/
noncomputable def vcmState (sim : VCMSim) (len : ℕ) (events : List SchedEvent)
    (adj : Option (ℕ × ℝ)) : ℕ → ℝ × ℝ
  | 0 => applyAdjust sim adj 0 (0, 0)
  | n + 1 =>
    applyAdjust sim adj (n + 1)
      (vcmStep sim ((buildMaps len events).1 n) ((buildMaps len events).2 n)
        (vcmState sim len events adj n))

/-! ### Closed-form superposition simulator of 08_VCM_CKD.py
(`VCMSimulationCKD.run_sim_schedule`, lines 20-49) -/

/-- One dose's contribution to the concentration, `t_from_start` minutes
after the dose's start (the inner loop of `run_sim_schedule`): zero before
the start (`continue`), the infusion build-up while `t_from_start <= t_inf_min`,
and exponential decay from the computed peak afterwards. -/
noncomputable def doseContrib (Vd ke rate tInfMin tFromStart : ℝ) : ℝ :=
  if tFromStart < 0 then 0
  else if tFromStart ≤ tInfMin then
    rate / (Vd * ke) * (1 - Real.exp (-(ke * tFromStart)))
  else
    rate / (Vd * ke) * (1 - Real.exp (-(ke * tInfMin))) *
      Real.exp (-(ke * (tFromStart - tInfMin)))

/-- The accumulated contribution of a (suffix of the) dose list at grid index
`j` (time `60*j` minutes), `i` being the index of the first dose of the
suffix; doses with `d <= 0` are skipped (`continue`), dose `i` starts at
`i * interval` hours. -/
noncomputable def schedConcFrom (Vd ke : ℝ) (interval : ℕ) (tInfMin : ℝ) :
    List ℝ → ℕ → ℕ → ℝ
  | [], _, _ => 0
  | d :: rest, i, j =>
    (if d ≤ 0 then 0
     else doseContrib Vd ke (d / tInfMin) tInfMin
       (60 * (j : ℝ) - ((i * interval : ℕ) : ℝ) * 60)) +
      schedConcFrom Vd ke interval tInfMin rest (i + 1) j

/-- `conc_curve[j]` of `run_sim_schedule` (08_VCM_CKD.py, lines 20-49), with
`ke = kel_base/60` per minute and `t_inf_min = infusion_time*60`. -/
noncomputable def run_sim_schedule_conc (Vd kel_base : ℝ) (dose_list : List ℝ)
    (interval : ℕ) (infusion_time : ℝ) (j : ℕ) : ℝ :=
  schedConcFrom Vd (kel_base / 60) interval (infusion_time * 60) dose_list 0 j

/-- Number of grid points of `run_sim_schedule`:
`total_hours = num_doses * interval + 48`, sampled hourly. -/
def schedLen (numDoses interval : ℕ) : ℕ := numDoses * interval + 48

/-- `pred = c[target_idx] if target_idx < len(c) else 0`, the observation
used by `fit_kel_from_measured` (08_VCM_CKD.py, line 70). -/
noncomputable def predConcAt (Vd kel_base : ℝ) (dose_list : List ℝ)
    (interval : ℕ) (infusion_time : ℝ) (idx : ℕ) : ℝ :=
  if idx < schedLen dose_list.length interval then
    run_sim_schedule_conc Vd kel_base dose_list interval infusion_time idx
  else 0

/-! ### Bisection fitter of 08_VCM_CKD.py (`fit_kel_from_measured`, lines 56-77) -/

/-- One bisection iteration: `mid = (low+high)/2`; `low = mid` when
`pred > target_val`, else `high = mid`. -/
noncomputable def bisectStep (f : ℝ → ℝ) (tgt : ℝ) (p : ℝ × ℝ) : ℝ × ℝ :=
  if tgt < f ((p.1 + p.2) / 2) then ((p.1 + p.2) / 2, p.2) else (p.1, (p.1 + p.2) / 2)

/-- `n` bisection iterations starting from the bracket `p`. -/
noncomputable def bisectIter (f : ℝ → ℝ) (tgt : ℝ) : ℕ → ℝ × ℝ → ℝ × ℝ
  | 0, p => p
  | n + 1, p => bisectIter f tgt n (bisectStep f tgt p)

/-- `fit_kel_from_measured` (08_VCM_CKD.py, lines 56-77): 20 bisection
iterations for `kel_base` over `[0.001, 0.5]` against the predicted
concentration at `target_idx = int(measured_hour)` of a fresh
`VCMSimulationCKD` (whose `Vd` is `Vd_est * weight`), returning the final
midpoint `(low_k + high_k) / 2` — a bare number, with no confidence
metadata attached. -/
noncomputable def fit_kel_from_measured (target_val measured_hour weight : ℝ)
    (dose_list : List ℝ) (interval : ℕ) (Vd_est infusion_time : ℝ) : ℝ :=
  let p := bisectIter
    (fun k => predConcAt (Vd_est * weight) k dose_list interval infusion_time
      (Int.toNat ⌊measured_hour⌋)) target_val 20 (0.001, 0.5)
  (p.1 + p.2) / 2

/-! ### Discrete-time simulator of 05_Overdose_Sim.py (`run_scenario`) -/

/-- The `hd_config` dictionary of `run_scenario`. -/
structure HDConfig where
  start : ℤ
  dur : ℤ
  cl_val : ℝ

/-- `current_cl` at minute `t` (05_Overdose_Sim.py, lines 58-60). -/
noncomputable def scenarioCl (hd : Option HDConfig) (t : ℕ) : ℝ :=
  match hd with
  | none => 0
  | some c => if c.start ≤ (t : ℤ) ∧ (t : ℤ) < c.start + c.dur then c.cl_val else 0

instance (hd : HDConfig) (t : ℕ) :
    Decidable (hd.start ≤ (t : ℤ) ∧ (t : ℤ) < hd.start + hd.dur) := by
  infer_instance

/-- One Euler step of `run_scenario` (05_Overdose_Sim.py, lines 62-74): BOTH
`A1` and `A2` are clamped to be non-negative. -/
noncomputable def scenarioStep (sim : DrugSim) (clv : ℝ) (s : ℝ × ℝ) : ℝ × ℝ :=
  let trans_net := sim.k21 * s.2 - sim.k12 * s.1
  let elim := sim.k_el * s.1
  let rem_hd := s.1 / sim.V1 * clv
  (max 0 (s.1 + trans_net - elim - rem_hd), max 0 (s.2 - trans_net))

/-- The `(A1, A2)` state of `run_scenario` as recorded at grid point `n`. -/
noncomputable def scenarioState (sim : DrugSim) (hd : Option HDConfig) (init : ℝ × ℝ) : ℕ → ℝ × ℝ
  | 0 => init
  | n + 1 => scenarioStep sim (scenarioCl hd n) (scenarioState sim hd init n)

/-! ### Theorems for claims C1 and C8 -/

/-- C1 counterexample input: weight 1 kg, `V1_per_kg = 1`, `V2_per_kg = 1`,
`Q = 1`, off-removal half-life 1 h. -/
def c1Params : VCMParams := { V1_per_kg := 1, V2_per_kg := 1, Q := 1, T_half_off := 1 }

/-- C1 (counterexample): for the construction with a positive half-life
(1 hour = 60 min) and `V1 = V2 = 1`, the derived `k_el` is
`0.693*2/60`, which is NOT `ln 2` divided by the half-life in minutes. -/
theorem kel_not_log_two_div_half_life :
    (mkVCMSimulation 1 c1Params).k_el ≠ Real.log 2 / 60 := by
  have hlog : Real.log 2 ≤ 1 := by
    have h := Real.log_le_sub_one_of_pos (x := 2) (by norm_num)
    linarith
  have hval : (mkVCMSimulation 1 c1Params).k_el = 1.386 / 60 := by
    simp only [mkVCMSimulation, c1Params]
    norm_num
  rw [hval]
  intro h
  have : (1.386 : ℝ) = Real.log 2 := by
    field_simp at h
    linarith
  linarith

/-- C1 (amended): for every compartment-model construction with a positive
half-life, the derived elimination rate constant is
`0.693 * (V1 + V2) / (t_half_min * V1)` — that is, (approximate) ln 2 over
the half-life in minutes, scaled by the total-to-central volume ratio — in
both `DrugSimulation` (05) and `VCMSimulation` (06). -/
theorem kel_derivation (weight : ℝ) (p : DrugParams) (q : VCMParams)
    (hp : 0 < p.T_half_hours) (hq : 0 < q.T_half_off) :
    (mkDrugSimulation p weight).k_el =
      0.693 * ((mkDrugSimulation p weight).V1 + (mkDrugSimulation p weight).V2) /
        ((p.T_half_hours * 60) * (mkDrugSimulation p weight).V1) ∧
    (mkVCMSimulation weight q).k_el =
      0.693 * ((mkVCMSimulation weight q).V1 + (mkVCMSimulation weight q).V2) /
        ((q.T_half_off * 60) * (mkVCMSimulation weight q).V1) := by
  constructor
  · simp only [mkDrugSimulation]
    rw [if_pos (by linarith)]
  · simp only [mkVCMSimulation]
    rw [if_pos (by linarith)]

/-- C1 witness: the amended derivation evaluated at the end-to-end scenario of
the spec (weight 60 kg, V1 = 0.25 L/kg, V2 = 0.65 L/kg, half-life 70 h). -/
theorem kel_derivation_witness :
    (0 : ℝ) < 70 ∧
    (mkVCMSimulation 60 { V1_per_kg := 0.25, V2_per_kg := 0.65, Q := 0.15, T_half_off := 70 }).k_el =
      0.693 * ((0.25 * 60 : ℝ) + 0.65 * 60) / ((70 * 60) * (0.25 * 60)) := by
  refine ⟨by norm_num, ?_⟩
  have h := (kel_derivation 60
    { V1_per_kg := 1, V2_per_kg := 1, Q_inter_L_min := 1, T_half_hours := 1 }
    { V1_per_kg := 0.25, V2_per_kg := 0.65, Q := 0.15, T_half_off := 70 }
    (by norm_num) (by norm_num)).2
  rw [h]
  simp only [mkVCMSimulation]

/-- C8 (counterexample): with a non-positive weight (-1 kg) and a non-positive
half-life (0 h) the `VCMSimulation` constructor does not reject the input: it
proceeds, producing a simulation object with a negative central volume and a
silently substituted elimination rate constant `k_el = 0`. -/
theorem no_validation_counterexample :
    (mkVCMSimulation (-1) { V1_per_kg := 1, V2_per_kg := 1, Q := 1, T_half_off := 0 }).V1 = -1 ∧
    (mkVCMSimulation (-1) { V1_per_kg := 1, V2_per_kg := 1, Q := 1, T_half_off := 0 }).k_el = 0 := by
  constructor
  · simp only [mkVCMSimulation]
    norm_num
  · simp only [mkVCMSimulation]
    norm_num

/-- C8 (amended): the engine performs no input validation at all: for every
weight and every parameter set — including non-positive weight, volumes and
half-life — both constructors produce a simulation object built directly from
the supplied values, and a non-positive half-life is substituted by
`k_el = 0` rather than being rejected with the offending field named. -/
theorem no_validation (weight : ℝ) (p : DrugParams) (q : VCMParams)
    (hp : p.T_half_hours ≤ 0) (hq : q.T_half_off ≤ 0) :
    (mkDrugSimulation p weight).V1 = p.V1_per_kg * weight ∧
    (mkDrugSimulation p weight).k_el = 0 ∧
    (mkVCMSimulation weight q).V1 = q.V1_per_kg * weight ∧
    (mkVCMSimulation weight q).k_el = 0 := by
  refine ⟨rfl, ?_, rfl, ?_⟩
  · simp only [mkDrugSimulation]
    rw [if_neg (by push_neg; nlinarith)]
  · simp only [mkVCMSimulation]
    rw [if_neg (by push_neg; nlinarith)]

/-- C8 witness: the no-validation theorem applied at weight 0 and half-life
-5 h, a concrete invalid input the engine accepts. -/
theorem no_validation_witness :
    ((-5 : ℝ) ≤ 0) ∧
    (mkVCMSimulation 0 { V1_per_kg := 1, V2_per_kg := 1, Q := 1, T_half_off := -5 }).k_el = 0 := by
  refine ⟨by norm_num, ?_⟩
  exact (no_validation 0
    { V1_per_kg := 1, V2_per_kg := 1, Q_inter_L_min := 1, T_half_hours := -5 }
    { V1_per_kg := 1, V2_per_kg := 1, Q := 1, T_half_off := -5 }
    (by norm_num) (by norm_num)).2.2.2

/-! ### Theorem for claim C3 (clearance conversion) -/

/-- C3: the extracorporeal-clearance conversion.  With `ratio = Qb/Qd` and
`Z = (KoA/Qb)*(1-ratio)`: when `Qb = 0` both page variants return 0; when
`ratio` is within the degeneracy threshold 0.001 of 1, both return the
limiting form `Qb*KoA/(KoA+Qb)` (up to their output scaling: `sc` on page 05,
the fixed mL/min-to-L/min factor 1/1000 on page 06); otherwise both return
the general formula `Qb*(e^Z-1)/(e^Z-ratio)` (same scalings).  Being total
functions, they never raise on these degenerate inputs. -/
theorem hd_clearance_cases (Qb Qd KoA : ℝ) :
    (Qb = 0 →
      calculate_hd_clearance05 Qb Qd KoA 1 = 0 ∧ calculate_hd_clearance06 Qb Qd KoA = 0) ∧
    (Qb ≠ 0 → |1 - Qb / Qd| < 0.001 →
      calculate_hd_clearance05 Qb Qd KoA 1 = Qb * (KoA / (KoA + Qb)) ∧
      calculate_hd_clearance06 Qb Qd KoA = Qb * (KoA / (KoA + Qb)) / 1000) ∧
    (Qb ≠ 0 → ¬ |1 - Qb / Qd| < 0.001 →
      calculate_hd_clearance05 Qb Qd KoA 1 =
        Qb * (Real.exp ((KoA / Qb) * (1 - Qb / Qd)) - 1) /
          (Real.exp ((KoA / Qb) * (1 - Qb / Qd)) - Qb / Qd) ∧
      calculate_hd_clearance06 Qb Qd KoA =
        Qb * (Real.exp ((KoA / Qb) * (1 - Qb / Qd)) - 1) /
          (Real.exp ((KoA / Qb) * (1 - Qb / Qd)) - Qb / Qd) / 1000) := by
  refine ⟨?_, ?_, ?_⟩
  · intro h
    simp [calculate_hd_clearance05, calculate_hd_clearance06, h]
  · intro h hlim
    simp only [calculate_hd_clearance05, calculate_hd_clearance06, hdClearanceCore,
      if_neg h, if_pos hlim]
    exact ⟨mul_one _, trivial⟩
  · intro h hgen
    simp only [calculate_hd_clearance05, calculate_hd_clearance06, hdClearanceCore,
      if_neg h, if_neg hgen]
    exact ⟨mul_one _, trivial⟩

/-- C3 witness: the three cases at concrete flows — `Qb = 0`;
`Qb = Qd = 500` (ratio exactly 1, limiting form); `Qb = 200`, `Qd = 500`
(ratio 0.4, general exponential formula).  `KoA = 700` throughout. -/
theorem hd_clearance_cases_witness :
    calculate_hd_clearance05 0 500 700 1 = 0 ∧
    calculate_hd_clearance05 500 500 700 1 = 500 * (700 / (700 + 500)) ∧
    calculate_hd_clearance06 200 500 700 =
      200 * (Real.exp ((700 / 200) * (1 - 200 / 500)) - 1) /
        (Real.exp ((700 / 200) * (1 - 200 / 500)) - 200 / 500) / 1000 := by
  refine ⟨((hd_clearance_cases 0 500 700).1 rfl).1, ?_, ?_⟩
  · have h := ((hd_clearance_cases 500 500 700).2.1 (by norm_num) (by norm_num)).1
    simpa using h
  · have habs : |1 - (200 : ℝ) / 500| = 3 / 5 := by
      rw [abs_of_nonneg] <;> norm_num
    have h := ((hd_clearance_cases 200 500 700).2.2 (by norm_num)
      (by rw [habs]; norm_num)).2
    simpa using h

/-! ### Dose advisor (06_VCM_Sim.py lines 341-352, 08_VCM_CKD.py lines 302-313) -/

/-- Python's built-in `round` to the nearest integer, halves to even
(banker's rounding), as used by both dose advisors. -/
noncomputable def pyRound (x : ℝ) : ℤ :=
  if Int.fract x < 1 / 2 then ⌊x⌋
  else if 1 / 2 < Int.fract x then ⌊x⌋ + 1
  else if Even ⌊x⌋ then ⌊x⌋ else ⌊x⌋ + 1

/-- The rounded value is within half a unit of the argument. -/
theorem pyRound_dist (x : ℝ) : |(pyRound x : ℝ) - x| ≤ 1 / 2 := by
  have hfr : (⌊x⌋ : ℝ) + Int.fract x = x := Int.floor_add_fract x
  have h0 : 0 ≤ Int.fract x := Int.fract_nonneg x
  have h1 : Int.fract x < 1 := Int.fract_lt_one x
  unfold pyRound
  split_ifs with hlt hgt heven
  · rw [abs_le]; constructor <;> linarith
  · push_cast
    rw [abs_le]; constructor <;> linarith
  · rw [abs_le]; constructor <;> linarith
  · push_cast
    rw [abs_le]; constructor <;> linarith

/-- `calc_auc24_steady` (08_VCM_CKD.py, lines 51-53): steady-state AUC24 as
daily dose over clearance, 0 when the clearance is 0. -/
noncomputable def calc_auc24_steady (cl daily_dose : ℝ) : ℝ :=
  if cl = 0 then 0 else daily_dose / cl

/-- The AUC24-target branch of the dose advisor (08_VCM_CKD.py, lines
302-313): `req_daily_dose = target_auc * cl`,
`suggest_raw = req_daily_dose / (24 / interval)`,
`new_dose = round(suggest_raw / 100) * 100`. -/
noncomputable def suggestNewDoseAUC (target_auc cl interval : ℝ) : ℝ :=
  (pyRound ((target_auc * cl / (24 / interval)) / 100) : ℝ) * 100

/-- The trough-target proposal of page 06 (06_VCM_Sim.py, lines 341-352),
before the 50 mg rounding: scale the planned dose by
`target_val / pred_next_trough` when the simulated trough is positive,
otherwise keep the planned dose. -/
noncomputable def suggestDoseRaw06 (current_planned_dose pred_next_trough target_val : ℝ) : ℝ :=
  if 0 < pred_next_trough then current_planned_dose * (target_val / pred_next_trough)
  else current_planned_dose

/-- The trough-target branch of page 08 (08_VCM_CKD.py, lines 304-310),
before `/(24/interval)` and the 100 mg rounding: scale the daily-equivalent
dose by `target_trough / curr_trough` when the simulated trough is positive. -/
noncomputable def reqDailyDoseTrough08 (daily_dose_equiv curr_trough target_trough : ℝ) : ℝ :=
  if 0 < curr_trough then daily_dose_equiv * (target_trough / curr_trough)
  else daily_dose_equiv

/-! ### Theorems for claims C4 and C5 -/

/-- C4: for an AUC24 target with positive clearance and positive interval,
the per-dose amount proposed by the AUC24 branch, rounded to the nearest
100 mg, has a recomputed steady-state AUC24 (`daily dose / CL` via
`calc_auc24_steady`) within the rounding-granularity tolerance
`50 * (24/interval) / cl` of the target. -/
theorem auc_advisor_consistency (target_auc cl interval : ℝ)
    (hcl : 0 < cl) (hint : 0 < interval) :
    |calc_auc24_steady cl (suggestNewDoseAUC target_auc cl interval * (24 / interval)) -
        target_auc| ≤ 50 * (24 / interval) / cl := by
  have hf : (0 : ℝ) < 24 / interval := by positivity
  have hcl0 : cl ≠ 0 := ne_of_gt hcl
  have hf0 : (24 / interval : ℝ) ≠ 0 := ne_of_gt hf
  set y := (target_auc * cl / (24 / interval)) / 100 with hy
  have hdist : |(pyRound y : ℝ) - y| ≤ 1 / 2 := pyRound_dist y
  have hrw : calc_auc24_steady cl (suggestNewDoseAUC target_auc cl interval * (24 / interval)) -
      target_auc = ((pyRound y : ℝ) - y) * (100 * (24 / interval) / cl) := by
    simp only [calc_auc24_steady, suggestNewDoseAUC, if_neg hcl0, hy]
    field_simp
    ring
  rw [hrw, abs_mul]
  have habs : |(100 * (24 / interval) / cl : ℝ)| = 100 * (24 / interval) / cl := by
    rw [abs_of_pos]; positivity
  rw [habs]
  have h2 : |(pyRound y : ℝ) - y| * (100 * (24 / interval) / cl) ≤
      (1 / 2) * (100 * (24 / interval) / cl) := by
    apply mul_le_mul_of_nonneg_right hdist
    positivity
  calc |(pyRound y : ℝ) - y| * (100 * (24 / interval) / cl)
      ≤ (1 / 2) * (100 * (24 / interval) / cl) := h2
    _ = 50 * (24 / interval) / cl := by ring

/-- C4 witness: target AUC24 = 430, CL = 1 L/h, interval 24 h; the advisor
proposes 400 mg (rounding 430 down), whose recomputed AUC24 misses the
target by 30 ≤ 50. -/
theorem auc_advisor_consistency_witness :
    (0 : ℝ) < 1 ∧
    |calc_auc24_steady 1 (suggestNewDoseAUC 430 1 24 * (24 / 24)) - 430| ≤ 50 * (24 / 24) / 1 :=
  ⟨by norm_num, auc_advisor_consistency 430 1 24 (by norm_num) (by norm_num)⟩

/-- C5: for a trough target with a positive current simulated trough, both
advisors propose the proportional scaling `current * (target / trough)`
before rounding; in particular a 1000 mg dose at simulated trough 10 and
target 15 scales to 1500 mg. -/
theorem trough_scaling (current pred target daily ct tt : ℝ)
    (hpred : 0 < pred) (hct : 0 < ct) :
    suggestDoseRaw06 current pred target = current * (target / pred) ∧
    reqDailyDoseTrough08 daily ct tt = daily * (tt / ct) ∧
    suggestDoseRaw06 1000 10 15 = 1500 := by
  refine ⟨?_, ?_, ?_⟩
  · rw [suggestDoseRaw06, if_pos hpred]
  · rw [reqDailyDoseTrough08, if_pos hct]
  · rw [suggestDoseRaw06, if_pos (by norm_num : (0:ℝ) < 10)]
    norm_num

/-- C5 witness: the scaling theorem at the spec's end-to-end numbers
(1000 mg, trough 10, target 15 gives 1500 mg before rounding). -/
theorem trough_scaling_witness :
    (0 : ℝ) < 10 ∧ suggestDoseRaw06 1000 10 15 = 1500 :=
  ⟨by norm_num,
    (trough_scaling 1000 10 15 1000 10 15 (by norm_num) (by norm_num)).2.2⟩

/-! ### Theorems for claims C2 and C10 -/

/-- The 06 simulator parameters that exhibit a negative `A2`: `V1 = 1`,
`V2 = 1/2`, `Q = 1` (so `k12 = 1`, `k21 = 2`), half-life 0 (so `k_el = 0`). -/
noncomputable def c2Sim : VCMSim := mkVCMSimulation 1 { V1_per_kg := 1, V2_per_kg := 1/2, Q := 1, T_half_off := 0 }

/-- The schedule for the C2 counterexample: a single 1-minute dose of 1 mg. -/
noncomputable def c2Events : List SchedEvent := [{ isHD := false, start := 0, dur := 1, val := 1 }]

/-- C2 (counterexample): in `run_sim` of 06_VCM_Sim.py only `A1` is clamped;
with `k21 = 2` the peripheral amount overshoots below zero: at grid point 3
of this run, `A2 = -1 < 0`. -/
theorem a2_not_clamped_counterexample :
    (vcmState c2Sim 4 c2Events none 3).2 = -1 := by
  have h12 : c2Sim.k12 = 1 := by
    simp only [c2Sim, mkVCMSimulation]
    norm_num
  have h21 : c2Sim.k21 = 2 := by
    simp only [c2Sim, mkVCMSimulation]
    norm_num
  have hel : c2Sim.k_el = 0 := by
    simp only [c2Sim, mkVCMSimulation]
    norm_num
  have hmap1 : ∀ t, (buildMaps 4 c2Events).1 t = 0 := by
    intro t
    simp [buildMaps, applyEvent, c2Events]
  have hmap2 : ∀ t, (buildMaps 4 c2Events).2 t = if inSlice 4 { isHD := false, start := 0, dur := 1, val := 1 } t then 1 else 0 := by
    intro t
    simp [buildMaps, applyEvent, c2Events]
  have hin0 : inSlice 4 { isHD := false, start := 0, dur := 1, val := 1 } 0 := by decide
  have hin1 : ¬ inSlice 4 { isHD := false, start := 0, dur := 1, val := 1 } 1 := by decide
  have hin2 : ¬ inSlice 4 { isHD := false, start := 0, dur := 1, val := 1 } 2 := by decide
  have s0 : vcmState c2Sim 4 c2Events none 0 = (0, 0) := rfl
  have s1 : vcmState c2Sim 4 c2Events none 1 = (1, 0) := by
    show applyAdjust c2Sim none 1 (vcmStep c2Sim ((buildMaps 4 c2Events).1 0)
      ((buildMaps 4 c2Events).2 0) (vcmState c2Sim 4 c2Events none 0)) = (1, 0)
    rw [s0, hmap1, hmap2, if_pos hin0]
    simp only [applyAdjust, vcmStep, h12, h21, hel]
    norm_num
  have s2 : vcmState c2Sim 4 c2Events none 2 = (0, 1) := by
    show applyAdjust c2Sim none 2 (vcmStep c2Sim ((buildMaps 4 c2Events).1 1)
      ((buildMaps 4 c2Events).2 1) (vcmState c2Sim 4 c2Events none 1)) = (0, 1)
    rw [s1, hmap1, hmap2, if_neg hin1]
    simp only [applyAdjust, vcmStep, h12, h21, hel]
    norm_num
  show (applyAdjust c2Sim none 3 (vcmStep c2Sim ((buildMaps 4 c2Events).1 2)
    ((buildMaps 4 c2Events).2 2) (vcmState c2Sim 4 c2Events none 2))).2 = -1
  rw [s2, hmap1, hmap2, if_neg hin2]
  simp only [applyAdjust, vcmStep, h12, h21, hel]
  norm_num

/-- C2 (amended): in `run_scenario` of 05_Overdose_Sim.py both amounts are
clamped after every step, so for every parameter set, removal window and
non-negative initial state both `A1` and `A2` are non-negative at every grid
point; in `run_sim` of 06_VCM_Sim.py only `A1` is clamped, so only `A1` is
guaranteed non-negative at every grid point (for every schedule, parameter
set with non-negative `V1`, and non-negative measured reset value), while
`A2` can go negative. -/
theorem clamp_nonneg (sim05 : DrugSim) (hd : Option HDConfig) (init : ℝ × ℝ)
    (sim06 : VCMSim) (len : ℕ) (events : List SchedEvent) (adj : Option (ℕ × ℝ))
    (h1 : 0 ≤ init.1) (h2 : 0 ≤ init.2)
    (hV1 : 0 ≤ sim06.V1) (hadj : ∀ a ∈ adj, 0 ≤ a.2) :
    (∀ n, 0 ≤ (scenarioState sim05 hd init n).1 ∧ 0 ≤ (scenarioState sim05 hd init n).2) ∧
    (∀ n, 0 ≤ (vcmState sim06 len events adj n).1) := by
  have hadj1 : ∀ i s, 0 ≤ s.1 → 0 ≤ (applyAdjust sim06 adj i s).1 := by
    intro i s hs
    match adj, hadj with
    | none, _ => exact hs
    | some a, hadj =>
      have ha : 0 ≤ a.2 := hadj a rfl
      simp only [applyAdjust]
      split_ifs <;> first
        | exact hs
        | exact mul_nonneg ha hV1
  constructor
  · intro n
    induction n with
    | zero => exact ⟨h1, h2⟩
    | succ n _ => exact ⟨le_max_left 0 _, le_max_left 0 _⟩
  · intro n
    cases n with
    | zero => exact hadj1 0 (0, 0) le_rfl
    | succ n => exact hadj1 (n + 1) _ (le_max_left 0 _)

/-- C2 witness: both parts of the amended clamp theorem at concrete inputs —
the 05 scenario run with `A1 = A2 = 1` initially at grid point 2, and the 06
counterexample run (whose `A1`, unlike its `A2`, stays non-negative) at grid
point 3. -/
theorem clamp_nonneg_witness :
    (0 ≤ (scenarioState (mkDrugSimulation
        { V1_per_kg := 1, V2_per_kg := 1/2, Q_inter_L_min := 1, T_half_hours := 0 } 1)
        none (1, 1) 2).1 ∧
      0 ≤ (scenarioState (mkDrugSimulation
        { V1_per_kg := 1, V2_per_kg := 1/2, Q_inter_L_min := 1, T_half_hours := 0 } 1)
        none (1, 1) 2).2) ∧
    0 ≤ (vcmState c2Sim 4 c2Events none 3).1 := by
  have h := clamp_nonneg (mkDrugSimulation
      { V1_per_kg := 1, V2_per_kg := 1/2, Q_inter_L_min := 1, T_half_hours := 0 } 1)
    none (1, 1) c2Sim 4 c2Events none (by norm_num) (by norm_num)
    (by simp only [c2Sim, mkVCMSimulation]; norm_num)
    (by intro a ha; cases ha)
  exact ⟨h.1 2, h.2 3⟩

/-- C10: schedule compilation of `run_sim` (06_VCM_Sim.py, lines 48-61).
Appending an `'hd'` event to the schedule overwrites the clearance map on the
event's (clipped) minutes, discarding whatever earlier events had written
there, and leaves the infusion map unchanged; appending a `'dose'` event adds
its rate `val/duration` to the infusion map on those minutes, on top of all
earlier doses, and leaves the clearance map unchanged. -/
theorem schedule_compilation_overlap (len : ℕ) (es : List SchedEvent) (e : SchedEvent) (t : ℕ) :
    (e.isHD = true →
      (buildMaps len (es ++ [e])).1 t =
        (if inSlice len e t then e.val else (buildMaps len es).1 t) ∧
      (buildMaps len (es ++ [e])).2 t = (buildMaps len es).2 t) ∧
    (e.isHD = false →
      (buildMaps len (es ++ [e])).2 t =
        (buildMaps len es).2 t + (if inSlice len e t then e.val / (e.dur : ℝ) else 0) ∧
      (buildMaps len (es ++ [e])).1 t = (buildMaps len es).1 t) := by
  have hfold : buildMaps len (es ++ [e]) = applyEvent len (buildMaps len es) e := by
    simp [buildMaps, List.foldl_append]
  constructor
  · intro h
    rw [hfold]
    simp [applyEvent, h]
  · intro h
    rw [hfold]
    simp [applyEvent, h]

/-- C10 witness: two overlapping removal windows (clearances 5 then 7, both
covering minute 4) compile to the later clearance 7 at minute 4; two
overlapping doses (100 mg and 50 mg over 10 min, both covering minute 4)
compile to the summed rate `100/10 + 50/10 = 15` at minute 4. -/
theorem schedule_compilation_overlap_witness :
    (buildMaps 20 ([{ isHD := true, start := 0, dur := 10, val := 5 }] ++
      [{ isHD := true, start := 3, dur := 10, val := 7 }])).1 4 = 7 ∧
    (buildMaps 20 ([{ isHD := false, start := 0, dur := 10, val := 100 }] ++
      [{ isHD := false, start := 3, dur := 10, val := 50 }])).2 4 = 15 := by
  constructor
  · rw [((schedule_compilation_overlap 20 [{ isHD := true, start := 0, dur := 10, val := 5 }]
      { isHD := true, start := 3, dur := 10, val := 7 } 4).1 rfl).1]
    rw [if_pos (by decide)]
  · rw [((schedule_compilation_overlap 20 [{ isHD := false, start := 0, dur := 10, val := 100 }]
      { isHD := false, start := 3, dur := 10, val := 50 } 4).2 rfl).1]
    rw [if_pos (by decide)]
    have hbase : (buildMaps 20 [{ isHD := false, start := 0, dur := 10, val := 100 }]).2 4 = 10 := by
      have hin : inSlice 20 { isHD := false, start := 0, dur := 10, val := 100 } 4 := by decide
      simp only [buildMaps, applyEvent, List.foldl_cons, List.foldl_nil,
        Bool.false_eq_true, if_false, if_pos hin]
      norm_num
    rw [hbase]
    norm_num

/-! ### Linearity of the closed-form path (claim C9) -/

/-- A dose contribution with rate 0 is 0 at every time. -/
theorem doseContrib_zero (Vd ke tInf tf : ℝ) : doseContrib Vd ke 0 tInf tf = 0 := by
  unfold doseContrib
  split_ifs <;> simp

/-- Each branch of `doseContrib` is linear in the infusion rate. -/
theorem doseContrib_add (Vd ke r1 r2 tInf tf : ℝ) :
    doseContrib Vd ke (r1 + r2) tInf tf =
      doseContrib Vd ke r1 tInf tf + doseContrib Vd ke r2 tInf tf := by
  unfold doseContrib
  split_ifs <;> ring

/-- The guarded per-dose term of `run_sim_schedule` is additive in the dose
amount, provided both amounts are non-negative (valid `DoseEvent`s). -/
theorem guardedContrib_add (Vd ke tInf tf d1 d2 : ℝ) (h1 : 0 ≤ d1) (h2 : 0 ≤ d2) :
    (if d1 + d2 ≤ 0 then 0 else doseContrib Vd ke ((d1 + d2) / tInf) tInf tf) =
      (if d1 ≤ 0 then 0 else doseContrib Vd ke (d1 / tInf) tInf tf) +
        (if d2 ≤ 0 then 0 else doseContrib Vd ke (d2 / tInf) tInf tf) := by
  rcases eq_or_lt_of_le h1 with hz1 | hp1
  · have hd1 : d1 = 0 := hz1.symm
    subst hd1
    rcases eq_or_lt_of_le h2 with hz2 | hp2
    · have hd2 : d2 = 0 := hz2.symm
      subst hd2
      simp
    · rw [if_neg (by linarith), if_pos le_rfl, if_neg (by linarith)]
      rw [zero_add, zero_add]
  · rcases eq_or_lt_of_le h2 with hz2 | hp2
    · have hd2 : d2 = 0 := hz2.symm
      subst hd2
      rw [if_neg (by linarith), if_neg (by linarith), if_pos le_rfl]
      rw [add_zero, add_zero]
    · rw [if_neg (by linarith), if_neg (by linarith), if_neg (by linarith)]
      rw [add_div]
      exact doseContrib_add Vd ke (d1 / tInf) (d2 / tInf) tInf tf

/-- Elementwise-sum dose lists superpose, suffix by suffix. -/
theorem schedConcFrom_add (Vd ke : ℝ) (interval : ℕ) (tInf : ℝ) :
    ∀ (la lb : List ℝ) (i j : ℕ), la.length = lb.length →
      (∀ d ∈ la, 0 ≤ d) → (∀ d ∈ lb, 0 ≤ d) →
      schedConcFrom Vd ke interval tInf (List.zipWith (· + ·) la lb) i j =
        schedConcFrom Vd ke interval tInf la i j +
          schedConcFrom Vd ke interval tInf lb i j := by
  intro la
  induction la with
  | nil =>
    intro lb i j hlen _ _
    have : lb = [] := List.eq_nil_of_length_eq_zero hlen.symm
    subst this
    simp [schedConcFrom]
  | cons a la ih =>
    intro lb i j hlen ha hb
    cases lb with
    | nil => simp at hlen
    | cons b lb =>
      have hlen' : la.length = lb.length := by
        simpa using hlen
      have ha' : ∀ d ∈ la, 0 ≤ d := fun d hd => ha d (List.mem_cons_of_mem a hd)
      have hb' : ∀ d ∈ lb, 0 ≤ d := fun d hd => hb d (List.mem_cons_of_mem b hd)
      have haa : 0 ≤ a := ha a (List.mem_cons_self a la)
      have hbb : 0 ≤ b := hb b (List.mem_cons_self b lb)
      simp only [List.zipWith_cons_cons, schedConcFrom]
      rw [ih lb (i + 1) j hlen' ha' hb']
      rw [guardedContrib_add Vd ke tInf _ a b haa hbb]
      ring

/-- C9: superposition linearity of the closed-form path: for fixed PK
parameters, interval and infusion time, and any two equal-length lists of
(non-negative, per the DoseEvent data model) dose amounts, the trajectory of
their elementwise sum is the pointwise sum of the two trajectories. -/
theorem superposition_linearity (Vd kel_base : ℝ) (interval : ℕ) (infusion_time : ℝ)
    (la lb : List ℝ) (hlen : la.length = lb.length)
    (ha : ∀ d ∈ la, 0 ≤ d) (hb : ∀ d ∈ lb, 0 ≤ d) (j : ℕ) :
    run_sim_schedule_conc Vd kel_base (List.zipWith (· + ·) la lb) interval infusion_time j =
      run_sim_schedule_conc Vd kel_base la interval infusion_time j +
        run_sim_schedule_conc Vd kel_base lb interval infusion_time j :=
  schedConcFrom_add Vd (kel_base / 60) interval (infusion_time * 60) la lb 0 j hlen ha hb

/-- C9 witness: a 1000 mg dose list plus a 500 mg dose list (Vd 42 L,
kel 0.1/h, interval 24 h, 1 h infusion) superpose at grid point 3. -/
theorem superposition_linearity_witness :
    run_sim_schedule_conc 42 0.1 (List.zipWith (· + ·) [1000] [500]) 24 1 3 =
      run_sim_schedule_conc 42 0.1 [1000] 24 1 3 +
        run_sim_schedule_conc 42 0.1 [500] 24 1 3 := by
  have h := superposition_linearity 42 0.1 24 1 [1000] [500] (by simp)
    (by intro d hd; rw [List.mem_singleton] at hd; rw [hd]; norm_num)
    (by intro d hd; rw [List.mem_singleton] at hd; rw [hd]; norm_num) 3
  exact h

/-! ### Generic bisection lemmas (claims C6 and C7) -/

/-- The bracket width halves with every bisection iteration. -/
theorem bisectIter_width (f : ℝ → ℝ) (tgt : ℝ) :
    ∀ (n : ℕ) (p : ℝ × ℝ),
      (bisectIter f tgt n p).2 - (bisectIter f tgt n p).1 = (p.2 - p.1) / 2 ^ n := by
  intro n
  induction n with
  | zero => intro p; simp [bisectIter]
  | succ n ih =>
    intro p
    show (bisectIter f tgt n (bisectStep f tgt p)).2 -
        (bisectIter f tgt n (bisectStep f tgt p)).1 = (p.2 - p.1) / 2 ^ (n + 1)
    rw [ih (bisectStep f tgt p)]
    unfold bisectStep
    split_ifs <;> (simp only [Prod.fst, Prod.snd]; rw [pow_succ]; ring)

/-- When the synthesized target is `f k` for a `k` inside the bracket and `f`
is strictly decreasing on the ambient interval, bisection keeps `k`
bracketed and the bracket inside the interval. -/
theorem bisectIter_mem (f : ℝ → ℝ) (a b k : ℝ)
    (hf : StrictAntiOn f (Set.Icc a b)) (hk : k ∈ Set.Icc a b) :
    ∀ (n : ℕ) (p : ℝ × ℝ), p.1 ∈ Set.Icc a b → p.2 ∈ Set.Icc a b →
      k ∈ Set.Icc p.1 p.2 →
      (bisectIter f (f k) n p).1 ∈ Set.Icc a b ∧
        (bisectIter f (f k) n p).2 ∈ Set.Icc a b ∧
        k ∈ Set.Icc (bisectIter f (f k) n p).1 (bisectIter f (f k) n p).2 := by
  intro n
  induction n with
  | zero => intro p h1 h2 hk12; exact ⟨h1, h2, hk12⟩
  | succ n ih =>
    intro p h1 h2 hk12
    have hle : p.1 ≤ p.2 := le_trans hk12.1 hk12.2
    have hmid : (p.1 + p.2) / 2 ∈ Set.Icc a b :=
      ⟨le_trans h1.1 (by linarith), le_trans (by linarith) h2.2⟩
    rw [show bisectIter f (f k) (n + 1) p = bisectIter f (f k) n (bisectStep f (f k) p) from rfl]
    by_cases hc : f k < f ((p.1 + p.2) / 2)
    · have hstep : bisectStep f (f k) p = ((p.1 + p.2) / 2, p.2) := by
        unfold bisectStep
        rw [if_pos hc]
      have hmidk : (p.1 + p.2) / 2 < k := by
        by_contra hcon
        push_neg at hcon
        rcases eq_or_lt_of_le hcon with heq | hlt
        · rw [heq] at hc
          exact lt_irrefl _ hc
        · exact absurd (hf hk hmid hlt) (by linarith)
      rw [hstep]
      exact ih ((p.1 + p.2) / 2, p.2) hmid h2 ⟨le_of_lt hmidk, hk12.2⟩
    · have hstep : bisectStep f (f k) p = (p.1, (p.1 + p.2) / 2) := by
        unfold bisectStep
        rw [if_neg hc]
      have hkmid : k ≤ (p.1 + p.2) / 2 := by
        by_contra hcon
        push_neg at hcon
        exact absurd (hf hmid hk hcon) (by push_neg at hc; linarith)
      rw [hstep]
      exact ih (p.1, (p.1 + p.2) / 2) h1 hmid ⟨hk12.1, hkmid⟩

/-- When the target exceeds everything `f` can produce on the ambient
interval, every iteration keeps the lower end and halves towards it. -/
theorem bisectIter_pinned_low (f : ℝ → ℝ) (tgt a b : ℝ)
    (h : ∀ x ∈ Set.Icc a b, f x < tgt) :
    ∀ (n : ℕ) (p : ℝ × ℝ), p.1 ∈ Set.Icc a b → p.2 ∈ Set.Icc a b → p.1 ≤ p.2 →
      bisectIter f tgt n p = (p.1, p.1 + (p.2 - p.1) / 2 ^ n) := by
  intro n
  induction n with
  | zero =>
    intro p _ _ _
    show p = (p.1, p.1 + (p.2 - p.1) / 2 ^ 0)
    rw [Prod.ext_iff]
    refine ⟨rfl, ?_⟩
    simp
  | succ n ih =>
    intro p h1 h2 hle
    have hmid : (p.1 + p.2) / 2 ∈ Set.Icc a b :=
      ⟨le_trans h1.1 (by linarith), le_trans (by linarith) h2.2⟩
    show bisectIter f tgt n (bisectStep f tgt p) = _
    have hstep : bisectStep f tgt p = (p.1, (p.1 + p.2) / 2) := by
      unfold bisectStep
      rw [if_neg (by push_neg; exact le_of_lt (h _ hmid))]
    rw [hstep, ih (p.1, (p.1 + p.2) / 2) h1 hmid (by linarith)]
    rw [Prod.ext_iff]
    refine ⟨rfl, ?_⟩
    show p.1 + ((p.1 + p.2) / 2 - p.1) / 2 ^ n = p.1 + (p.2 - p.1) / 2 ^ (n + 1)
    rw [pow_succ]
    ring

/-- When the target is below everything `f` can produce on the ambient
interval, every iteration keeps the upper end and halves towards it. -/
theorem bisectIter_pinned_high (f : ℝ → ℝ) (tgt a b : ℝ)
    (h : ∀ x ∈ Set.Icc a b, tgt < f x) :
    ∀ (n : ℕ) (p : ℝ × ℝ), p.1 ∈ Set.Icc a b → p.2 ∈ Set.Icc a b → p.1 ≤ p.2 →
      bisectIter f tgt n p = (p.2 - (p.2 - p.1) / 2 ^ n, p.2) := by
  intro n
  induction n with
  | zero =>
    intro p _ _ _
    show p = (p.2 - (p.2 - p.1) / 2 ^ 0, p.2)
    rw [Prod.ext_iff]
    refine ⟨?_, rfl⟩
    simp
  | succ n ih =>
    intro p h1 h2 hle
    have hmid : (p.1 + p.2) / 2 ∈ Set.Icc a b :=
      ⟨le_trans h1.1 (by linarith), le_trans (by linarith) h2.2⟩
    show bisectIter f tgt n (bisectStep f tgt p) = _
    have hstep : bisectStep f tgt p = ((p.1 + p.2) / 2, p.2) := by
      unfold bisectStep
      rw [if_pos (h _ hmid)]
    rw [hstep, ih ((p.1 + p.2) / 2, p.2) hmid h2 (by linarith)]
    rw [Prod.ext_iff]
    refine ⟨?_, rfl⟩
    show p.2 - (p.2 - (p.1 + p.2) / 2) / 2 ^ n = p.2 - (p.2 - p.1) / 2 ^ (n + 1)
    rw [pow_succ]
    ring

/-- C6: fitter round-trip.  For every schedule and every `kel` strictly
inside the search bounds `(0.001, 0.5)` such that the predicted
concentration at the sampling index is strictly decreasing in `kel` on the
search interval, synthesizing the observation by simulating with that `kel`
and feeding it to `fit_kel_from_measured` returns a value within the
bisection resolution `(0.5 - 0.001) / 2^20` of the original `kel`. -/
theorem fitter_roundtrip (weight Vd_est infusion_time measured_hour : ℝ)
    (dose_list : List ℝ) (interval : ℕ) (kstar : ℝ)
    (hlo : 0.001 < kstar) (hhi : kstar < 0.5)
    (hanti : StrictAntiOn
      (fun k => predConcAt (Vd_est * weight) k dose_list interval infusion_time
        (Int.toNat ⌊measured_hour⌋)) (Set.Icc 0.001 0.5)) :
    |fit_kel_from_measured
        (predConcAt (Vd_est * weight) kstar dose_list interval infusion_time
          (Int.toNat ⌊measured_hour⌋))
        measured_hour weight dose_list interval Vd_est infusion_time - kstar| ≤
      (0.5 - 0.001) / 2 ^ 20 := by
  simp only [fit_kel_from_measured]
  set f : ℝ → ℝ := fun k => predConcAt (Vd_est * weight) k dose_list interval infusion_time
    (Int.toNat ⌊measured_hour⌋) with hf
  have hbeta : f kstar = predConcAt (Vd_est * weight) kstar dose_list interval infusion_time
      (Int.toNat ⌊measured_hour⌋) := rfl
  rw [← hbeta]
  have hk : kstar ∈ Set.Icc (0.001 : ℝ) 0.5 := ⟨le_of_lt hlo, le_of_lt hhi⟩
  have hmem := bisectIter_mem f 0.001 0.5 kstar hanti hk 20 (0.001, 0.5)
    (by constructor <;> norm_num) (by constructor <;> norm_num) hk
  have hw := bisectIter_width f (f kstar) 20 (0.001, 0.5)
  have hk1 := hmem.2.2.1
  have hk2 := hmem.2.2.2
  have hW : (0 : ℝ) ≤ (0.5 - 0.001) / 2 ^ 20 := by positivity
  simp only [Prod.fst, Prod.snd] at hw
  rw [abs_le]
  constructor <;> linarith

/-- C7 (amended form): when the observed concentration lies outside what any
`kel` within the search bounds can produce, the fitter's bisection collapses
onto a search-interval boundary: the returned value equals the boundary
plus/minus half a bisection resolution — so it is within the resolution
`(0.5 - 0.001)/2^20` of the boundary but not exactly equal to it — and the
total function `fit_kel_from_measured` returns it as a bare number (no
exception; also no accompanying confidence metadata). -/
theorem fitter_boundary_pinned (target_val measured_hour weight Vd_est infusion_time : ℝ)
    (dose_list : List ℝ) (interval : ℕ) :
    ((∀ kel ∈ Set.Icc (0.001 : ℝ) 0.5,
        predConcAt (Vd_est * weight) kel dose_list interval infusion_time
          (Int.toNat ⌊measured_hour⌋) < target_val) →
      fit_kel_from_measured target_val measured_hour weight dose_list interval Vd_est
          infusion_time = 0.001 + (0.5 - 0.001) / 2 ^ 21) ∧
    ((∀ kel ∈ Set.Icc (0.001 : ℝ) 0.5,
        target_val < predConcAt (Vd_est * weight) kel dose_list interval infusion_time
          (Int.toNat ⌊measured_hour⌋)) →
      fit_kel_from_measured target_val measured_hour weight dose_list interval Vd_est
          infusion_time = 0.5 - (0.5 - 0.001) / 2 ^ 21) := by
  constructor
  · intro h
    have hpin := bisectIter_pinned_low
      (fun k => predConcAt (Vd_est * weight) k dose_list interval infusion_time
        (Int.toNat ⌊measured_hour⌋)) target_val 0.001 0.5 h 20 (0.001, 0.5)
      (by constructor <;> norm_num) (by constructor <;> norm_num) (by norm_num)
    simp only [fit_kel_from_measured]
    rw [hpin]
    norm_num
  · intro h
    have hpin := bisectIter_pinned_high
      (fun k => predConcAt (Vd_est * weight) k dose_list interval infusion_time
        (Int.toNat ⌊measured_hour⌋)) target_val 0.001 0.5 h 20 (0.001, 0.5)
      (by constructor <;> norm_num) (by constructor <;> norm_num) (by norm_num)
    simp only [fit_kel_from_measured]
    rw [hpin]
    norm_num

/-! ### A concrete schedule on which the fitter's monotonicity precondition
holds: one 1000 mg dose, 1 h infusion, Vd 42 L (0.7 L/kg times 60 kg),
interval 24 h, sampled at hour 24. -/

/-- The post-infusion branch of `doseContrib`, written out. -/
theorem doseContrib_post (Vd ke rate tInf tf : ℝ) (h0 : ¬ tf < 0) (h1 : ¬ tf ≤ tInf) :
    doseContrib Vd ke rate tInf tf =
      rate / (Vd * ke) * (1 - Real.exp (-(ke * tInf))) * Real.exp (-(ke * (tf - tInf))) := by
  rw [doseContrib, if_neg h0, if_neg h1]

/-- The sampling index `int(measured_hour)` for `measured_hour = 24.0`. -/
theorem floor_24_toNat : Int.toNat ⌊(24 : ℝ)⌋ = 24 := by
  rw [show ((24 : ℝ)) = ((24 : ℤ) : ℝ) by norm_num, Int.floor_intCast]
  rfl

/-- The predicted concentration of the concrete schedule, in closed form:
`1000/(42 k) * (1 - e^(-k)) * e^(-23 k)` (a 1 h infusion observed 23 h after
its end). -/
theorem predConc_concrete (k : ℝ) (hk : k ≠ 0) :
    predConcAt (0.7 * 60) k [1000] 24 1 (Int.toNat ⌊(24 : ℝ)⌋) =
      1000 / (42 * k) * (1 - Real.exp (-k)) * Real.exp (-(23 * k)) := by
  rw [floor_24_toNat]
  rw [predConcAt, if_pos (by norm_num [schedLen])]
  rw [run_sim_schedule_conc]
  simp only [schedConcFrom]
  rw [if_neg (show ¬ (1000 : ℝ) ≤ 0 by norm_num), add_zero]
  rw [show (60 * ((24 : ℕ) : ℝ) - ((0 * 24 : ℕ) : ℝ) * 60) = 1440 by norm_num]
  rw [doseContrib_post _ _ _ _ _ (by norm_num) (by norm_num)]
  rw [show -(k / 60 * (1 * 60)) = -k by ring]
  rw [show -(k / 60 * (1440 - 1 * 60)) = -(23 * k) by ring]
  rw [show (1000 : ℝ) / (1 * 60) / (0.7 * 60 * (k / 60)) = 1000 / (42 * k) by
    rw [div_div]
    congr 1
    ring]

/-- For `0 < a ≤ b`, `(1 - e^(-b))/b ≤ (1 - e^(-a))/a` (the secant slope of
the convex exponential decreases as the interval widens). -/
theorem one_sub_exp_neg_div_anti {a b : ℝ} (ha : 0 < a) (hab : a ≤ b) :
    (1 - Real.exp (-b)) / b ≤ (1 - Real.exp (-a)) / a := by
  have hb : 0 < b := lt_of_lt_of_le ha hab
  rw [div_le_div_iff hb ha]
  have hd0 : 0 ≤ b - a := sub_nonneg.mpr hab
  have hE : Real.exp (-b) = Real.exp (-a) * Real.exp (-(b - a)) := by
    rw [← Real.exp_add]
    congr 1
    ring
  have h1 : 1 - (b - a) ≤ Real.exp (-(b - a)) := by
    have h := Real.add_one_le_exp (-(b - a))
    linarith
  have h2 : 1 + a ≤ Real.exp a := by
    have h := Real.add_one_le_exp a
    linarith
  have h3 : Real.exp (-a) * Real.exp a = 1 := by
    rw [← Real.exp_add]
    simp
  have h4 : 0 < Real.exp (-a) := Real.exp_pos _
  rw [hE]
  have key1 : a + (b - a) - a * Real.exp (-(b - a)) ≤ (b - a) * (1 + a) := by
    nlinarith [mul_le_mul_of_nonneg_left h1 ha.le]
  have key2 : Real.exp (-a) * (1 + a) ≤ 1 := by
    nlinarith [mul_le_mul_of_nonneg_left h2 h4.le]
  have key3 : Real.exp (-a) * (a + (b - a) - a * Real.exp (-(b - a))) ≤ b - a := by
    nlinarith [mul_le_mul_of_nonneg_left key1 h4.le, mul_le_mul_of_nonneg_left key2 hd0]
  nlinarith [key3]

/-- The closed form `1000/(42 k) * (1 - e^(-k)) * e^(-23 k)` is strictly
decreasing on the fitter's search interval. -/
theorem closedForm_strictAnti :
    StrictAntiOn (fun k : ℝ => 1000 / (42 * k) * (1 - Real.exp (-k)) * Real.exp (-(23 * k)))
      (Set.Icc (0.001 : ℝ) 0.5) := by
  intro x hx y hy hxy
  have hx0 : 0 < x := lt_of_lt_of_le (by norm_num) hx.1
  have hy0 : 0 < y := lt_of_lt_of_le (by norm_num) hy.1
  have hslope : (1 - Real.exp (-y)) / y ≤ (1 - Real.exp (-x)) / x :=
    one_sub_exp_neg_div_anti hx0 (le_of_lt hxy)
  have hgxpos : 0 < (1 - Real.exp (-x)) / x := by
    apply div_pos _ hx0
    have h := Real.exp_lt_exp.mpr (show -x < 0 by linarith)
    rw [Real.exp_zero] at h
    linarith
  have hgylow : 0 ≤ (1 - Real.exp (-y)) / y := by
    apply div_nonneg _ hy0.le
    have h := Real.exp_le_exp.mpr (show -y ≤ 0 by linarith)
    rw [Real.exp_zero] at h
    linarith
  have hCpos : 0 < Real.exp (-(23 * y)) := Real.exp_pos _
  have hClt : Real.exp (-(23 * y)) < Real.exp (-(23 * x)) :=
    Real.exp_lt_exp.mpr (by nlinarith)
  have hform : ∀ k : ℝ, 0 < k →
      1000 / (42 * k) * (1 - Real.exp (-k)) * Real.exp (-(23 * k)) =
        1000 / 42 * ((1 - Real.exp (-k)) / k * Real.exp (-(23 * k))) := by
    intro k hk
    field_simp
    ring
  simp only
  rw [hform y hy0, hform x hx0]
  have step1 : (1 - Real.exp (-y)) / y * Real.exp (-(23 * y)) ≤
      (1 - Real.exp (-x)) / x * Real.exp (-(23 * y)) :=
    mul_le_mul_of_nonneg_right hslope hCpos.le
  have step2 : (1 - Real.exp (-x)) / x * Real.exp (-(23 * y)) <
      (1 - Real.exp (-x)) / x * Real.exp (-(23 * x)) :=
    mul_lt_mul_of_pos_left hClt hgxpos
  have hcoef : (0 : ℝ) < 1000 / 42 := by norm_num
  exact mul_lt_mul_of_pos_left (lt_of_le_of_lt step1 step2) hcoef

/-- The concrete schedule's predicted concentration at hour 24 is strictly
decreasing in `kel` on the search interval. -/
theorem predConc_strictAnti :
    StrictAntiOn (fun k => predConcAt (0.7 * 60) k [1000] 24 1 (Int.toNat ⌊(24 : ℝ)⌋))
      (Set.Icc (0.001 : ℝ) 0.5) := by
  intro x hx y hy hxy
  have hx0 : x ≠ 0 := ne_of_gt (lt_of_lt_of_le (by norm_num) hx.1)
  have hy0 : y ≠ 0 := ne_of_gt (lt_of_lt_of_le (by norm_num) hy.1)
  simp only
  rw [predConc_concrete y hy0, predConc_concrete x hx0]
  exact closedForm_strictAnti hx hy hxy

/-- The concrete schedule's predicted concentration is below 1000 for every
`kel` in the search bounds (so an observation of 1000 is unfittable). -/
theorem predConc_lt (kel : ℝ) (hk : kel ∈ Set.Icc (0.001 : ℝ) 0.5) :
    predConcAt (0.7 * 60) kel [1000] 24 1 (Int.toNat ⌊(24 : ℝ)⌋) < 1000 := by
  have hk0 : 0 < kel := lt_of_lt_of_le (by norm_num) hk.1
  rw [predConc_concrete kel (ne_of_gt hk0)]
  have hB : 1 - Real.exp (-kel) ≤ kel := by
    have h := Real.add_one_le_exp (-kel)
    linarith
  have hBpos : 0 ≤ 1 - Real.exp (-kel) := by
    have h := Real.exp_le_exp.mpr (show -kel ≤ 0 by linarith)
    rw [Real.exp_zero] at h
    linarith
  have hC1 : Real.exp (-(23 * kel)) ≤ 1 := by
    have h := Real.exp_le_exp.mpr (show -(23 * kel) ≤ 0 by nlinarith)
    rw [Real.exp_zero] at h
    exact h
  have hA : 0 < 1000 / (42 * kel) := by positivity
  have s1 : 1000 / (42 * kel) * (1 - Real.exp (-kel)) * Real.exp (-(23 * kel)) ≤
      1000 / (42 * kel) * (1 - Real.exp (-kel)) :=
    mul_le_of_le_one_right (mul_nonneg hA.le hBpos) hC1
  have s2 : 1000 / (42 * kel) * (1 - Real.exp (-kel)) ≤ 1000 / (42 * kel) * kel :=
    mul_le_mul_of_nonneg_left hB hA.le
  have s3 : 1000 / (42 * kel) * kel = 1000 / 42 := by
    field_simp
    ring
  have hend : (1000 : ℝ) / 42 < 1000 := by norm_num
  linarith

/-- The concrete schedule's predicted concentration is positive for every
`kel` in the search bounds (so an observation of 0 is unfittable). -/
theorem predConc_pos (kel : ℝ) (hk : kel ∈ Set.Icc (0.001 : ℝ) 0.5) :
    0 < predConcAt (0.7 * 60) kel [1000] 24 1 (Int.toNat ⌊(24 : ℝ)⌋) := by
  have hk0 : 0 < kel := lt_of_lt_of_le (by norm_num) hk.1
  rw [predConc_concrete kel (ne_of_gt hk0)]
  have hB : 0 < 1 - Real.exp (-kel) := by
    have h := Real.exp_lt_exp.mpr (show -kel < 0 by linarith)
    rw [Real.exp_zero] at h
    linarith
  have hA : 0 < 1000 / (42 * kel) := by positivity
  exact mul_pos (mul_pos hA hB) (Real.exp_pos _)

/-- C6 witness: the round-trip theorem at the concrete schedule with
`kel = 0.1` strictly inside the bounds; the recovered value is within the
bisection resolution of 0.1. -/
theorem fitter_roundtrip_witness :
    (0.001 : ℝ) < 0.1 ∧ (0.1 : ℝ) < 0.5 ∧
    |fit_kel_from_measured
        (predConcAt (0.7 * 60) 0.1 [1000] 24 1 (Int.toNat ⌊(24 : ℝ)⌋))
        24 60 [1000] 24 0.7 1 - 0.1| ≤ (0.5 - 0.001) / 2 ^ 20 :=
  ⟨by norm_num, by norm_num,
    fitter_roundtrip 60 0.7 1 24 [1000] 24 0.1 (by norm_num) (by norm_num) predConc_strictAnti⟩

/-- C7 (counterexample to the claim as stated): observing 1000 µg/mL, which
no `kel` in the search bounds can produce for the concrete schedule, the
fitter returns `0.001 + (0.5-0.001)/2^21` — a plain number that is near the
lower search boundary but NOT equal to either boundary, and (by the type of
`fit_kel_from_measured`, mirroring the code's bare `(low_k+high_k)/2`
return) carries no low-confidence metadata. -/
theorem fitter_pinned_result_counterexample :
    fit_kel_from_measured 1000 24 60 [1000] 24 0.7 1 = 0.001 + (0.5 - 0.001) / 2 ^ 21 ∧
    fit_kel_from_measured 1000 24 60 [1000] 24 0.7 1 ≠ 0.001 ∧
    fit_kel_from_measured 1000 24 60 [1000] 24 0.7 1 ≠ 0.5 := by
  have hfit : fit_kel_from_measured 1000 24 60 [1000] 24 0.7 1 =
      0.001 + (0.5 - 0.001) / 2 ^ 21 := by
    have hpin := bisectIter_pinned_low
      (fun k => predConcAt (0.7 * 60) k [1000] 24 1 (Int.toNat ⌊(24 : ℝ)⌋)) 1000 0.001 0.5
      (fun kel hk => predConc_lt kel hk) 20 (0.001, 0.5)
      (by constructor <;> norm_num) (by constructor <;> norm_num) (by norm_num)
    simp only [fit_kel_from_measured]
    rw [hpin]
    norm_num
  refine ⟨hfit, ?_, ?_⟩
  · rw [hfit]
    norm_num
  · rw [hfit]
    norm_num

/-- C7 witness: the boundary-pinning theorem at two concrete unfittable
observations — 2000 µg/mL (above anything producible: result just above the
lower bound 0.001) and 0 µg/mL (below anything producible: result just below
the upper bound 0.5). -/
theorem fitter_boundary_pinned_witness :
    fit_kel_from_measured 2000 24 60 [1000] 24 0.7 1 = 0.001 + (0.5 - 0.001) / 2 ^ 21 ∧
    fit_kel_from_measured 0 24 60 [1000] 24 0.7 1 = 0.5 - (0.5 - 0.001) / 2 ^ 21 := by
  constructor
  · exact (fitter_boundary_pinned 2000 24 60 0.7 1 [1000] 24).1
      (fun kel hk => lt_trans (predConc_lt kel hk) (by norm_num))
  · exact (fitter_boundary_pinned 0 24 60 0.7 1 [1000] 24).2
      (fun kel hk => predConc_pos kel hk)

end Nephro
